import Mathlib

/-!
Verification development for the e-commerce dashboard repository.

The definitions below are shallow embeddings of the repository's order
pricing, inventory bookkeeping, variant resolution and invoice formatting
logic.  Monetary amounts (SQL `numeric` / JS `number`) are modelled as `ℚ`,
integer columns as `ℤ`, nullable text columns as `Option String`.
-/

namespace EcommerceDashboard

/-! ## Order form pricing (src/pages/OrderForm.tsx) -/

/-- Order-form line item as used by `calculateSubtotal`/`calculateTotal`
(interface `OrderItem` in OrderForm.tsx: `quantity: number`, `price: number`). -/
structure FormItem where
  price : ℚ
  quantity : ℚ
  deriving Repr, DecidableEq

/-- Charges state of the order form (`tax_rate`, `shipping_amount`,
`discount_amount` in OrderForm.tsx). -/
structure Charges where
  tax_rate : ℚ
  shipping_amount : ℚ
  discount_amount : ℚ
  deriving Repr, DecidableEq

/-- OrderForm.tsx `calculateSubtotal`:
`items.reduce((total, item) => total + (item.price * item.quantity), 0)`. -/
def calculateSubtotal (items : List FormItem) : ℚ :=
  items.foldl (fun total item => total + item.price * item.quantity) 0

/-- OrderForm.tsx `calculateTotal`:
`subtotal + tax + charges.shipping_amount - charges.discount_amount`
with `tax = subtotal * charges.tax_rate`. -/
def calculateTotal (items : List FormItem) (charges : Charges) : ℚ :=
  let subtotal := calculateSubtotal items
  let tax := subtotal * charges.tax_rate
  subtotal + tax + charges.shipping_amount - charges.discount_amount

/-! ## Orders table (supabase/migrations/20250417172201_still_darkness.sql) -/

/-- Stored charge columns of the `orders` table.  `total_amount` is NOT a
field: in the schema it is a generated column (`GENERATED ALWAYS AS ... STORED`),
so it is modelled as a derived function and is not independently settable. -/
structure OrderRow where
  subtotal_amount : ℚ
  tax_amount : ℚ
  shipping_amount : ℚ
  discount_amount : ℚ
  deriving Repr, DecidableEq

/-- Generated column `total_amount numeric GENERATED ALWAYS AS
(subtotal_amount + tax_amount + shipping_amount - discount_amount) STORED`. -/
def total_amount (o : OrderRow) : ℚ :=
  o.subtotal_amount + o.tax_amount + o.shipping_amount - o.discount_amount

/-- Order row inserted by OrderForm.tsx `handleSubmit`:
`subtotal_amount: subtotal`, `tax_amount: subtotal * charges.tax_rate`,
`shipping_amount`, `discount_amount` taken from the charges state. -/
def orderRowOfForm (items : List FormItem) (charges : Charges) : OrderRow :=
  let subtotal := calculateSubtotal items
  { subtotal_amount := subtotal
    tax_amount := subtotal * charges.tax_rate
    shipping_amount := charges.shipping_amount
    discount_amount := charges.discount_amount }

/-- Row of the `order_items` table as written by OrderForm.tsx `handleSubmit`
(`quantity: item.quantity, price: item.price`). -/
structure OrderItemRow where
  price : ℚ
  quantity : ℚ
  deriving Repr, DecidableEq

/-- Order items inserted by OrderForm.tsx `handleSubmit`: one row per form
item, copying `quantity` and `price`. -/
def orderItemRowsOfForm (items : List FormItem) : List OrderItemRow :=
  items.map (fun item => { price := item.price, quantity := item.quantity })

/-! ## Invoice amounts (src/pages/OrderDetails.tsx, `printInvoice`) -/

/-- Line amount rendered in the invoice items table:
`formatCurrency(item.price * item.quantity)`. -/
def invoiceLineAmount (item : OrderItemRow) : ℚ :=
  item.price * item.quantity

/-- Numeric value rendered in the invoice items-table footer "Total" cell:
`formatCurrency(order.subtotal_amount)`. -/
def invoiceFooterTotal (o : OrderRow) : ℚ :=
  o.subtotal_amount

/-! ## Helper lemmas -/

theorem foldl_add_mul (items : List FormItem) (a : ℚ) :
    items.foldl (fun total item => total + item.price * item.quantity) a
      = a + (items.map (fun item => item.price * item.quantity)).sum := by
  induction items generalizing a with
  | nil => simp
  | cons x xs ih =>
      simp only [List.foldl_cons, List.map_cons, List.sum_cons]
      rw [ih]
      ring

theorem calculateSubtotal_eq_sum (items : List FormItem) :
    calculateSubtotal items
      = (items.map (fun item => item.price * item.quantity)).sum := by
  unfold calculateSubtotal
  rw [foldl_add_mul]
  ring

/-! ## Claim C1 -/

/-- C1: for every order with non-negative stored charge components, the
derived `total_amount` equals `subtotal + tax + shipping - discount` exactly,
in exact rational (decimal) arithmetic; moreover the order row inserted by the
order form has its derived total equal to the form's `calculateTotal`, so the
derivation is consistent across the persistence layer and the client.
(`total_amount` is a function of the four stored fields, mirroring the
generated column: it is not an independently settable field.) -/
theorem C1_total_amount_is_derived_sum
    (s t sh d : ℚ) (hs : 0 ≤ s) (ht : 0 ≤ t) (hsh : 0 ≤ sh) (hd : 0 ≤ d) :
    total_amount { subtotal_amount := s, tax_amount := t,
                   shipping_amount := sh, discount_amount := d }
        = s + t + sh - d
      ∧ ∀ (items : List FormItem) (charges : Charges),
          total_amount (orderRowOfForm items charges)
            = calculateTotal items charges := by
  refine ⟨rfl, ?_⟩
  intro items charges
  rfl

/-- Witness for C1 at concrete non-negative components. -/
theorem C1_total_amount_is_derived_sum_witness :
    total_amount { subtotal_amount := 25, tax_amount := (5 : ℚ) / 2,
                   shipping_amount := 10, discount_amount := 0 }
      = 25 + (5 : ℚ) / 2 + 10 - 0 := by
  have h := C1_total_amount_is_derived_sum 25 ((5 : ℚ) / 2) 10 0
    (by norm_num) (by norm_num) (by norm_num) (by norm_num)
  exact h.1

/-! ## Claim C2 -/

/-- C2: the subtotal stored for an order equals the sum over its items of
`price × quantity` (the form's `calculateSubtotal` is exactly that sum), and
the printed invoice's footer total — which renders `order.subtotal_amount` —
equals the sum of the invoice's line amounts for the order's items. -/
theorem C2_subtotal_and_invoice_footer
    (items : List FormItem) (charges : Charges) :
    calculateSubtotal items
        = (items.map (fun item => item.price * item.quantity)).sum
      ∧ (orderRowOfForm items charges).subtotal_amount
        = (items.map (fun item => item.price * item.quantity)).sum
      ∧ invoiceFooterTotal (orderRowOfForm items charges)
        = ((orderItemRowsOfForm items).map invoiceLineAmount).sum := by
  refine ⟨calculateSubtotal_eq_sum items, calculateSubtotal_eq_sum items, ?_⟩
  show calculateSubtotal items = _
  rw [calculateSubtotal_eq_sum]
  unfold orderItemRowsOfForm invoiceLineAmount
  rw [List.map_map]
  rfl

/-! ## Number-to-words (src/pages/OrderDetails.tsx, `numberToWords`) -/

/-- Word table `ones` of `numberToWords`. -/
def onesWords : List String :=
  ["", "One", "Two", "Three", "Four", "Five", "Six", "Seven", "Eight", "Nine"]

/-- Word table `tens` of `numberToWords`. -/
def tensWords : List String :=
  ["", "", "Twenty", "Thirty", "Forty", "Fifty", "Sixty", "Seventy", "Eighty", "Ninety"]

/-- Word table `teens` of `numberToWords`. -/
def teensWords : List String :=
  ["Ten", "Eleven", "Twelve", "Thirteen", "Fourteen", "Fifteen", "Sixteen",
   "Seventeen", "Eighteen", "Nineteen"]

/-- JavaScript array indexing: an out-of-range (or negative) index yields
`undefined`, which string concatenation renders as `"undefined"`. -/
def jsIndex (xs : List String) (i : ℤ) : String :=
  if i < 0 then "undefined" else xs.getD i.toNat "undefined"

/-- Inner helper `convertLessThanThousand` of `numberToWords`.  The JS mutates
a local `n` (`n %= 100` etc.); here each mutation is a new `let` binding.
Divisions only occur under guards making the operands non-negative, where
JS `Math.floor(a/b)` and `%` agree with Lean integer division and `%`. -/
def convertLessThanThousand (n : ℤ) : String :=
  if n = 0 then ""
  else
    let r1 := if 100 ≤ n then jsIndex onesWords (n / 100) ++ " Hundred " else ""
    let n1 := if 100 ≤ n then n % 100 else n
    if 20 ≤ n1 then
      let r2 := r1 ++ jsIndex tensWords (n1 / 10) ++ " "
      let n2 := n1 % 10
      if 0 < n2 then r2 ++ jsIndex onesWords n2 ++ " " else r2
    else if 10 ≤ n1 then
      r1 ++ jsIndex teensWords (n1 - 10) ++ " "
    else
      if 0 < n1 then r1 ++ jsIndex onesWords n1 ++ " " else r1

/-- JavaScript `String.prototype.trim`: strip whitespace from both ends. -/
def jsTrim (s : String) : String :=
  ⟨((s.data.dropWhile Char.isWhitespace).reverse.dropWhile Char.isWhitespace).reverse⟩

/-- Body of `numberToWords` after the `num === 0` early return.  In the JS
source everything from `let n = Math.floor(num)` onward depends only on the
floored value, so it is factored out over `n : ℤ`. -/
def intToWords (n : ℤ) : String :=
  let r1 := if 1000000 ≤ n then convertLessThanThousand (n / 1000000) ++ "Million " else ""
  let n1 := if 1000000 ≤ n then n % 1000000 else n
  let r2 := if 1000 ≤ n1 then r1 ++ convertLessThanThousand (n1 / 1000) ++ "Thousand " else r1
  let n2 := if 1000 ≤ n1 then n1 % 1000 else n1
  jsTrim (r2 ++ convertLessThanThousand n2) ++ " Only"

/-- OrderDetails.tsx `numberToWords`: `if (num === 0) return 'Zero';` then the
words of `Math.floor(num)` with an `' Only'` suffix. -/
def numberToWords (num : ℚ) : String :=
  if num = 0 then "Zero" else intToWords (Rat.floor num)

theorem rat_floor_int_cast (z : ℤ) : Rat.floor ((z : ℤ) : ℚ) = z := by
  simp [Rat.floor]

/-! ## Claim C8 -/

/-- C8 counterexample: the claim that `numberToWords` drops fractional parts
(i.e. depends only on the integer part of its input) is false at input `1/2`:
`numberToWords (1/2)` is `" Only"` while `numberToWords 0` — the value at its
integer part — is `"Zero"`, because the `num === 0` early return tests the
unfloored input. -/
theorem C8_fraction_not_dropped_counterexample :
    numberToWords (Rat.mk' 1 2) = " Only"
      ∧ numberToWords ((Rat.floor (Rat.mk' 1 2) : ℤ) : ℚ) = "Zero"
      ∧ numberToWords (Rat.mk' 1 2)
          ≠ numberToWords ((Rat.floor (Rat.mk' 1 2) : ℤ) : ℚ) := by
  refine ⟨?_, by decide, ?_⟩ <;>
    rw [numberToWords, if_neg (by decide : ¬ Rat.mk' 1 2 = (0:ℚ))] <;> decide

/-- C8 (amended): `numberToWords` maps the integer part of its input to
English short-scale words with an `"Only"` suffix — `numberToWords 0 = "Zero"`,
`numberToWords 100 = "One Hundred Only"`, `numberToWords 1234` contains
`"Thousand"`, millions are supported — and the fractional part is dropped for
every input whose integer part is nonzero (inputs strictly between 0 and 1
are the exception forced by the counterexample: they render as `" Only"`
rather than `"Zero"`); every nonzero input's result ends in `" Only"`.  The
embedding as a Lean function witnesses that the routine is pure. -/
theorem C8_numberToWords_contract :
    numberToWords 0 = "Zero"
      ∧ numberToWords 100 = "One Hundred Only"
      ∧ (∃ a b, numberToWords 1234 = a ++ "Thousand" ++ b)
      ∧ numberToWords 2000000 = "Two Million Only"
      ∧ (∀ x : ℚ, Rat.floor x ≠ 0 →
          numberToWords x = numberToWords ((Rat.floor x : ℤ) : ℚ))
      ∧ (∀ x : ℚ, x ≠ 0 → ∃ a, numberToWords x = a ++ " Only") := by
  refine ⟨by decide, by decide,
    ⟨"One ", " Two Hundred Thirty Four Only", by decide⟩, by decide, ?_, ?_⟩
  · intro x h
    have hx : x ≠ 0 := by
      intro h0; subst h0; simp [Rat.floor] at h
    rw [numberToWords, numberToWords, if_neg hx, if_neg (by exact_mod_cast h)]
    rw [rat_floor_int_cast]
  · intro x h
    rw [numberToWords, if_neg h, intToWords]
    exact ⟨_, rfl⟩

/-- Witness for C8: the fraction-dropping clause applied at `5/2` (integer
part `2`), and the suffix clause applied at `115`. -/
theorem C8_numberToWords_contract_witness :
    numberToWords (Rat.mk' 5 2) = numberToWords ((Rat.floor (Rat.mk' 5 2) : ℤ) : ℚ)
      ∧ ∃ a, numberToWords 115 = a ++ " Only" :=
  ⟨(C8_numberToWords_contract.2.2.2.2.1) (Rat.mk' 5 2) (by decide),
   (C8_numberToWords_contract.2.2.2.2.2) 115 (by decide)⟩

/-! ## Product variants (table `product_variants`, migrations bright_lake.sql)

A row of `product_variants`: `id` is the primary key (a `uuid`, modelled as
`ℕ`), `size`/`color`/`variant_name` are nullable text, `price` is nullable
numeric, `quantity integer NOT NULL DEFAULT 0`, `minimum_quantity integer NOT
NULL DEFAULT 5`, `is_default boolean NOT NULL DEFAULT false`. -/
structure VariantRow where
  id : ℕ
  product_id : String
  variant_name : Option String
  size : Option String
  color : Option String
  price : Option ℚ
  quantity : ℤ
  minimum_quantity : ℤ
  is_default : Bool
  deriving Repr, DecidableEq

/-- State of the `product_variants` table. -/
abbrev VariantDb := List VariantRow

/-- JavaScript `s || null` on a string: the empty string becomes null. -/
def normOpt (s : String) : Option String :=
  if s = "" then none else some s

/-- Fresh primary key generated by the database for an INSERT (modelling
`DEFAULT gen_random_uuid()`): strictly larger than every id in the table. -/
def freshId (db : VariantDb) : ℕ :=
  db.foldr (fun v m => max (v.id + 1) m) 0

/-- Constraint check for an INSERT against the declared
`one_default_variant_per_product` constraint (`UNIQUE (product_id, is_default)
WHERE (is_default = true)`): a new row conflicts when it is a default and the
product already has a default row. -/
def insertConflict (db : VariantDb) (r : VariantRow) : Bool :=
  r.is_default && db.any (fun w => w.product_id == r.product_id && w.is_default)

/-- INSERT INTO product_variants, rejected (state unchanged) when it would
violate `one_default_variant_per_product`. -/
def insertVariant (db : VariantDb) (r : VariantRow) : VariantDb :=
  if insertConflict db r then db else db ++ [r]

/-- UPDATE ... WHERE id = i: replaces the row with primary key `i` (the first
occurrence; `id` is a primary key, so at most one row matches) by `g` of it. -/
def updateById (db : VariantDb) (i : ℕ) (g : VariantRow → VariantRow) : VariantDb :=
  match db with
  | [] => []
  | w :: ws => if w.id = i then g w :: ws else w :: updateById ws i g

/-- Constraint check for an UPDATE writing the full row `r` over the row with
id `r.id`: it conflicts when `r` is a default and some other row of the same
product is a default. -/
def updateConflict (db : VariantDb) (r : VariantRow) : Bool :=
  r.is_default && db.any (fun w => w.id ≠ r.id && w.product_id == r.product_id && w.is_default)

/-- UPDATE of the full row with id `r.id` to `r`, rejected (state unchanged)
when it would violate `one_default_variant_per_product`. -/
def updateVariantRow (db : VariantDb) (r : VariantRow) : VariantDb :=
  if updateConflict db r then db else updateById db r.id (fun _ => r)

/-! ## Stock receive (src/pages/StockForm.tsx, `handleSubmit`) -/

/-- State of the StockForm (`interface StockFormData`). -/
structure StockFormData where
  product_id : String
  size : String
  color : String
  quantity : ℤ
  deriving Repr, DecidableEq

/-- Row predicate for the variant lookup
`.eq('product_id', ...).eq('size', formData.size || null).eq('color', formData.color || null)`. -/
def variantMatchesKey (pid : String) (size color : Option String) (v : VariantRow) : Bool :=
  v.product_id == pid && v.size == size && v.color == color

/-- Result of `.select(...).eq(...).single()`: the `data` field is the row
when exactly one row matches, and null otherwise (the handler destructures
only `data`, ignoring `error`). -/
def singleMatch (db : VariantDb) (pid : String) (size color : Option String) :
    Option VariantRow :=
  match db.filter (variantMatchesKey pid size color) with
  | [v] => some v
  | _ => none

/-- Row inserted by StockForm when no variant matches: the payload carries
`product_id`, `size || null`, `color || null` and `quantity`; every other
column takes its schema default (`variant_name` null, `price` null,
`minimum_quantity` 5, `is_default` false). -/
def stockInsertRow (db : VariantDb) (f : StockFormData) : VariantRow :=
  { id := freshId db
    product_id := f.product_id
    variant_name := none
    size := normOpt f.size
    color := normOpt f.color
    price := none
    quantity := f.quantity
    minimum_quantity := 5
    is_default := false }

/-- Write phase of StockForm `handleSubmit`: if a variant matching the
(product, size, color) key exists, set its quantity to
`existingVariant.quantity + formData.quantity`; otherwise insert a new
variant with quantity `formData.quantity`. -/
def receiveStock (db : VariantDb) (f : StockFormData) : VariantDb :=
  match singleMatch db f.product_id (normOpt f.size) (normOpt f.color) with
  | some v => updateById db v.id (fun w => { w with quantity := v.quantity + f.quantity })
  | none => insertVariant db (stockInsertRow db f)

/-- Outcome of a form submission handler: either a synchronous validation
error shown to the operator (no write attempted) or a write producing a new
table state. -/
inductive SubmitOutcome where
  | validationError (msg : String)
  | wrote (db : VariantDb)
  deriving Repr, DecidableEq

/-- StockForm `handleSubmit`: the only check performed by the handler itself
is that a product is selected; it then proceeds directly to the write. -/
def stockFormSubmit (db : VariantDb) (f : StockFormData) : SubmitOutcome :=
  if f.product_id = "" then .validationError "Please select a product"
  else .wrote (receiveStock db f)

/-- Browser-level constraint on the StockForm quantity input
(`<input type="number" required min="1" ...>`): form submission is blocked
unless the value is at least 1. -/
def stockFormInputAllows (q : ℤ) : Bool :=
  1 ≤ q

/-! ## Inventory manual override (src/pages/Inventory.tsx, `handleQuantityChange`) -/

/-- PostgreSQL integer limit `MAX_INTEGER` from Inventory.tsx. -/
def MAX_INTEGER : ℤ := 2147483647

/-- PostgreSQL integer limit `MIN_INTEGER` from Inventory.tsx. -/
def MIN_INTEGER : ℤ := -2147483648

/-- Outcome of the inventory quantity override: a validation alert (no write)
or an updated table state. -/
inductive QuantityUpdate where
  | rejected (msg : String)
  | updated (db : VariantDb)
  deriving Repr, DecidableEq

/-- Inventory.tsx `handleQuantityChange`: reject values outside the
PostgreSQL integer range, then reject negative values, otherwise
`UPDATE product_variants SET quantity = newQuantity WHERE id = id`. -/
def handleQuantityChange (db : VariantDb) (i : ℕ) (q : ℤ) : QuantityUpdate :=
  if MAX_INTEGER < q ∨ q < MIN_INTEGER then
    .rejected "Please enter a valid quantity between -2,147,483,648 and 2,147,483,647"
  else if q < 0 then
    .rejected "Quantity cannot be negative"
  else
    .updated (updateById db i (fun w => { w with quantity := q }))

/-! ## Product creation (src/pages/ProductForm.tsx, `handleSubmit`) -/

/-- Variant entry of the ProductForm (`interface Variant`). -/
structure FormVariant where
  variant_name : String
  size : String
  color : String
  price : ℚ
  quantity : ℤ
  minimum_quantity : ℤ
  is_default : Bool
  deriving Repr, DecidableEq

/-- Part of the ProductForm state relevant to variant creation. -/
structure ProductFormState where
  price : ℚ
  initial_stock : ℤ
  minimum_stock : ℤ
  hasVariants : Bool
  variants : List FormVariant
  deriving Repr, DecidableEq

/-- Payload inserted for an explicit variant in ProductForm `handleSubmit`:
`price: variant.price || parseFloat(formData.price)`,
`quantity: variant.quantity || formData.initial_stock`,
`minimum_quantity: variant.minimum_quantity || formData.minimum_stock`
(JS `||` falls back when the left side is 0). -/
def explicitVariantRow (pid : String) (form : ProductFormState) (dbId : ℕ)
    (v : FormVariant) : VariantRow :=
  { id := dbId
    product_id := pid
    variant_name := some v.variant_name
    size := normOpt v.size
    color := normOpt v.color
    price := some (if v.price = 0 then form.price else v.price)
    quantity := if v.quantity = 0 then form.initial_stock else v.quantity
    minimum_quantity := if v.minimum_quantity = 0 then form.minimum_stock else v.minimum_quantity
    is_default := v.is_default }

/-- Bookkeeping variant inserted when a product is created without explicit
variants: the payload carries only `product_id`, `quantity: initial_stock`,
`minimum_quantity: minimum_stock` and `is_default: true`; `variant_name`,
`size`, `color` and `price` take their schema defaults (null). -/
def defaultVariantRow (db : VariantDb) (pid : String) (form : ProductFormState) : VariantRow :=
  { id := freshId db
    product_id := pid
    variant_name := none
    size := none
    color := none
    price := none
    quantity := form.initial_stock
    minimum_quantity := form.minimum_stock
    is_default := true }

/-- Variant-creation phase of ProductForm `handleSubmit` for a new product:
`if (hasVariants && formData.variants.length > 0)` insert one row per form
variant, else insert the single default bookkeeping variant. -/
def createProductVariants (db : VariantDb) (pid : String) (form : ProductFormState) : VariantDb :=
  if form.hasVariants && !form.variants.isEmpty then
    form.variants.foldl (fun d v => insertVariant d (explicitVariantRow pid form (freshId d) v)) db
  else
    insertVariant db (defaultVariantRow db pid form)

/-! ## Product edit (ProductDetails page, `handleSave`) -/

/-- Variant entry of the ProductDetails edit form: an existing variant carries
its row id, a newly added one does not. -/
structure EditVariant where
  id : Option ℕ
  variant_name : String
  size : String
  color : String
  price : ℚ
  quantity : ℤ
  minimum_quantity : ℤ
  is_default : Bool
  deriving Repr, DecidableEq

/-- Part of the ProductDetails edit state relevant to variant writes. -/
structure EditFormState where
  initial_stock : ℤ
  minimum_stock : ℤ
  hasVariants : Bool
  variants : List EditVariant
  deriving Repr, DecidableEq

/-- Full-row payload (`variantData`) written for a variant in `handleSave`. -/
def editVariantRow (pid : String) (dbId : ℕ) (v : EditVariant) : VariantRow :=
  { id := dbId
    product_id := pid
    variant_name := some v.variant_name
    size := normOpt v.size
    color := normOpt v.color
    price := some v.price
    quantity := v.quantity
    minimum_quantity := v.minimum_quantity
    is_default := v.is_default }

/-- Variant-write phase of ProductDetails `handleSave`: reject (before any
write) when variants exist but none is marked default; otherwise update each
variant that has an id and insert each one that does not.  Without variants,
delete all of the product's rows and insert a fresh default bookkeeping row. -/
def productSaveVariants (db : VariantDb) (pid : String) (form : EditFormState) : VariantDb :=
  if form.hasVariants && !form.variants.any (fun v => v.is_default) then db
  else if form.hasVariants then
    form.variants.foldl (fun d v =>
      match v.id with
      | some i => updateVariantRow d (editVariantRow pid i v)
      | none => insertVariant d (editVariantRow pid (freshId d) v)) db
  else
    let db1 := db.filter (fun w => !(w.product_id == pid))
    insertVariant db1
      { id := freshId db1
        product_id := pid
        variant_name := none
        size := none
        color := none
        price := none
        quantity := form.initial_stock
        minimum_quantity := form.minimum_stock
        is_default := true }

/-! ## Variant-writing operations and the default-uniqueness invariant -/

/-- Operations of the application that create or update product variants. -/
inductive VariantOp where
  | receive (f : StockFormData)
  | setQuantity (i : ℕ) (q : ℤ)
  | createProduct (pid : String) (form : ProductFormState)
  | saveProduct (pid : String) (form : EditFormState)
  deriving Repr, DecidableEq

/-- Effect of each variant-writing operation on the `product_variants` table. -/
def applyVariantOp (db : VariantDb) : VariantOp → VariantDb
  | .receive f => match stockFormSubmit db f with
      | .wrote db1 => db1
      | .validationError _ => db
  | .setQuantity i q => match handleQuantityChange db i q with
      | .updated db1 => db1
      | .rejected _ => db
  | .createProduct pid form => createProductVariants db pid form
  | .saveProduct pid form => productSaveVariants db pid form

/-- Number of rows of a product flagged as its default variant. -/
def defaultsFor (db : VariantDb) (pid : String) : ℕ :=
  db.countP (fun v => v.product_id == pid && v.is_default)

/-- Invariant `one_default_variant_per_product`: at most one default variant
per product. -/
def atMostOneDefault (db : VariantDb) : Prop :=
  ∀ pid, defaultsFor db pid ≤ 1

/-! ## Order-form variant resolution (src/pages/OrderForm.tsx) -/

/-- Product variant as carried by the OrderForm (`interface ProductVariant`).
The underlying `product_variants` row also has an `is_default` column; the
OrderForm query does not select it and the page logic never reads it, so it
is carried here only so that selection policies can be compared. -/
structure OFVariant where
  id : String
  variant_name : Option String
  size : Option String
  color : Option String
  price : Option ℚ
  quantity : ℤ
  is_default : Bool
  deriving Repr, DecidableEq

/-- Product as carried by the OrderForm (`interface Product`). -/
structure OFProduct where
  id : String
  price : ℚ
  variants : List OFVariant
  deriving Repr, DecidableEq

/-- JS truthiness of `v.variant_name` (both null and the empty string are
falsy). -/
def truthyName (v : OFVariant) : Bool :=
  v.variant_name.getD "" ≠ ""

/-- OrderForm `hasVariantsInStock`: `product.variants.some(v => v.quantity > 0)`. -/
def hasVariantsInStock (p : OFProduct) : Bool :=
  p.variants.any (fun v => 0 < v.quantity)

/-- OrderForm `defaultVariant` computed in `handleProductChange`:
`hasVariantsInStock ? product.variants.find(v => v.quantity > 0 && v.variant_name) : null`. -/
def suggestedVariant (p : OFProduct) : Option OFVariant :=
  if hasVariantsInStock p then
    p.variants.find? (fun v => 0 < v.quantity && truthyName v)
  else
    none

/-- Default-variant selection policy as the specification words it: prefer
the variant flagged `is_default` if it has positive quantity, else the first
variant with a non-empty display name and positive quantity, else none.
Stated only to be compared against `suggestedVariant`, the policy the code
implements. -/
def specSuggestedVariant (p : OFProduct) : Option OFVariant :=
  match p.variants.find? (fun v => v.is_default && 0 < v.quantity) with
  | some v => some v
  | none => p.variants.find? (fun v => truthyName v && 0 < v.quantity)

/-- Unit price assigned by `handleProductChange`:
`price: defaultVariant?.price || product.price` — the product's base price is
used when there is no suggested variant, or when the suggested variant's
price is null or 0 (JS `||` treats 0 as falsy). -/
def productSelectPrice (p : OFProduct) : ℚ :=
  match suggestedVariant p with
  | some v =>
      match v.price with
      | some q => if q = 0 then p.price else q
      | none => p.price
  | none => p.price

/-- Order line as carried by the OrderForm (`interface OrderItem`); `price`
is an `Option` because `handleVariantChange` copies a possibly-null variant
price. -/
structure OFItem where
  product_id : String
  variant_id : Option String
  quantity : ℚ
  price : Option ℚ
  deriving Repr, DecidableEq

/-- Line produced by `handleProductChange` for the selected product. -/
def itemAfterProductChange (p : OFProduct) : OFItem :=
  { product_id := p.id
    variant_id := (suggestedVariant p).map (fun v => v.id)
    quantity := 1
    price := some (productSelectPrice p) }

/-- Line update in `handleVariantChange`: `variant_id: variantId,
price: variant.price` — the chosen variant's price is copied verbatim. -/
def itemAfterVariantChange (item : OFItem) (v : OFVariant) : OFItem :=
  { item with variant_id := some v.id, price := v.price }

/-! ## Claim C4 -/

/-- C4: creating a product without explicit variants inserts exactly one
variant row, with quantity `initial_stock`, minimum quantity `minimum_stock`,
`is_default` true, and `size`/`color`/`variant_name` unset (null).  The
product is freshly created, so no existing row carries its id. -/
theorem C4_default_variant_on_create (db : VariantDb) (pid : String)
    (form : ProductFormState)
    (hnv : form.hasVariants = false ∨ form.variants = [])
    (hfresh : ∀ v ∈ db, v.product_id ≠ pid) :
    createProductVariants db pid form = db ++ [defaultVariantRow db pid form]
      ∧ (defaultVariantRow db pid form).quantity = form.initial_stock
      ∧ (defaultVariantRow db pid form).minimum_quantity = form.minimum_stock
      ∧ (defaultVariantRow db pid form).is_default = true
      ∧ (defaultVariantRow db pid form).size = none
      ∧ (defaultVariantRow db pid form).color = none
      ∧ (defaultVariantRow db pid form).variant_name = none := by
  refine ⟨?_, rfl, rfl, rfl, rfl, rfl, rfl⟩
  have hcond : (form.hasVariants && !form.variants.isEmpty) = false := by
    rcases hnv with h | h <;> simp [h]
  have hconf : insertConflict db (defaultVariantRow db pid form) = false := by
    unfold insertConflict defaultVariantRow
    simp only [Bool.true_and, List.any_eq_false]
    intro w hw
    simp [hfresh w hw]
  unfold createProductVariants
  rw [hcond]
  simp only [Bool.false_eq_true, if_false]
  unfold insertVariant
  rw [hconf]
  simp

/-- Witness for C4: a product created with `initial_stock = 20`,
`minimum_stock = 5` and no explicit variants, on an empty table. -/
theorem C4_default_variant_on_create_witness :
    createProductVariants [] "p1" ⟨10, 20, 5, false, []⟩
      = [] ++ [defaultVariantRow [] "p1" ⟨10, 20, 5, false, []⟩]
      ∧ (defaultVariantRow [] "p1" ⟨10, 20, 5, false, []⟩).quantity = 20
      ∧ (defaultVariantRow [] "p1" ⟨10, 20, 5, false, []⟩).is_default = true := by
  have h := C4_default_variant_on_create [] "p1" ⟨10, 20, 5, false, []⟩
    (Or.inl rfl) (by intro v hv; cases hv)
  exact ⟨h.1, h.2.1, h.2.2.2.1⟩

/-! ## Claim C5 -/

/-- First variant of the C5 counterexample product: named, in stock, not the
default. -/
def c5Red : OFVariant :=
  { id := "v1", variant_name := some "Red", size := none, color := none,
    price := some 30, quantity := 3, is_default := false }

/-- Second variant of the C5 counterexample product: named, in stock, and
flagged `is_default`. -/
def c5Basic : OFVariant :=
  { id := "v2", variant_name := some "Basic", size := none, color := none,
    price := some 40, quantity := 5, is_default := true }

/-- C5 counterexample product: its `is_default` variant is in stock but is
not the first named in-stock variant. -/
def c5Product : OFProduct :=
  { id := "p1", price := 10, variants := [c5Red, c5Basic] }

/-- C5 counterexample: the claimed policy (prefer the `is_default` variant
when in stock) picks `c5Basic`, but `handleProductChange` suggests `c5Red`,
the first named in-stock variant — `is_default` is never consulted (the
OrderForm query does not even select that column). -/
theorem C5_is_default_not_preferred_counterexample :
    suggestedVariant c5Product = some c5Red
      ∧ specSuggestedVariant c5Product = some c5Basic
      ∧ suggestedVariant c5Product ≠ specSuggestedVariant c5Product := by
  decide

/-- C5 (amended): the initially suggested variant is always the first variant
with a non-empty display name and positive quantity (none when there is no
such variant, in particular when nothing is in stock); the `is_default` flag
plays no role.  The `hasVariantsInStock` guard in the code is redundant. -/
theorem C5_suggested_variant_characterization (p : OFProduct) :
    suggestedVariant p
      = p.variants.find? (fun v => 0 < v.quantity && truthyName v) := by
  unfold suggestedVariant
  by_cases h : hasVariantsInStock p
  · rw [if_pos h]
  · rw [if_neg h]
    symm
    rw [List.find?_eq_none]
    intro v hv hpv
    apply h
    unfold hasVariantsInStock
    rw [List.any_eq_true]
    exact ⟨v, hv, by
      have := And.left (by simpa using hpv)
      simpa using this⟩

/-! ## Claim C6 -/

/-- C6 counterexample input: a receive of `2^31` units (outside the signed
32-bit range) for a selected product. -/
def c6Form : StockFormData :=
  { product_id := "p1", size := "", color := "", quantity := 2147483648 }

/-- C6 counterexample: the stock-receive handler performs no 32-bit range
validation — submitting an amount of `2^31` produces a write carrying that
exact amount (the claim says it must be rejected with a validation error
before any write is attempted). -/
theorem C6_no_range_check_counterexample :
    stockFormSubmit [] c6Form = SubmitOutcome.wrote [stockInsertRow [] c6Form]
      ∧ (stockInsertRow [] c6Form).quantity = 2147483648
      ∧ MAX_INTEGER < (stockInsertRow [] c6Form).quantity := by
  refine ⟨?_, rfl, by decide⟩
  decide

/-- C6 (amended): zero or negative received amounts are rejected before
submission, but only by the quantity input's `required min="1"` browser
constraint; the handler itself checks only that a product is selected and
otherwise proceeds directly to the write, passing the received amount through
exactly — there is no signed-32-bit range validation before the write. -/
theorem C6_stock_receive_validation (db : VariantDb) (f : StockFormData) (q : ℤ) :
    (q < 1 → stockFormInputAllows q = false)
      ∧ (1 ≤ q → stockFormInputAllows q = true)
      ∧ (f.product_id = "" →
          stockFormSubmit db f = .validationError "Please select a product")
      ∧ (f.product_id ≠ "" → stockFormSubmit db f = .wrote (receiveStock db f))
      ∧ (stockInsertRow db f).quantity = f.quantity := by
  refine ⟨?_, ?_, ?_, ?_, rfl⟩
  · intro h; simp [stockFormInputAllows]; omega
  · intro h; simp [stockFormInputAllows]; omega
  · intro h; unfold stockFormSubmit; rw [if_pos h]
  · intro h; unfold stockFormSubmit; rw [if_neg h]

/-- Witness for C6: the form constraint rejects 0, and a submission with a
selected product goes through to the write. -/
theorem C6_stock_receive_validation_witness :
    stockFormInputAllows 0 = false
      ∧ stockFormSubmit [] c6Form = .wrote (receiveStock [] c6Form) :=
  ⟨(C6_stock_receive_validation [] c6Form 0).1 (by norm_num),
   (C6_stock_receive_validation [] c6Form 0).2.2.2.1 (by decide)⟩

/-! ## Updating a row by primary key: membership lemmas -/

theorem mem_updateById_of_ne (db : VariantDb) (i : ℕ) (g : VariantRow → VariantRow)
    (v : VariantRow) (hv : v ∈ db) (hid : v.id ≠ i) :
    v ∈ updateById db i g := by
  induction db with
  | nil => cases hv
  | cons w ws ih =>
      unfold updateById
      rcases List.mem_cons.mp hv with rfl | hvw
      · rw [if_neg hid]
        exact List.mem_cons_self _ _
      · by_cases hw : w.id = i
        · rw [if_pos hw]
          exact List.mem_cons_of_mem _ hvw
        · rw [if_neg hw]
          exact List.mem_cons_of_mem _ (ih hvw)

theorem mem_updateById_of_id (db : VariantDb) (i : ℕ) (g : VariantRow → VariantRow)
    (v : VariantRow) (hnodup : (db.map (fun v => v.id)).Nodup)
    (hv : v ∈ db) (hid : v.id = i) :
    g v ∈ updateById db i g := by
  induction db with
  | nil => cases hv
  | cons w ws ih =>
      unfold updateById
      rw [List.map_cons, List.nodup_cons] at hnodup
      rcases List.mem_cons.mp hv with rfl | hvw
      · rw [if_pos hid]
        exact List.mem_cons_self _ _
      · by_cases hw : w.id = i
        · exfalso
          apply hnodup.1
          rw [hw]
          have hmem : v.id ∈ List.map (fun v => v.id) ws :=
            List.mem_map_of_mem _ hvw
          rw [hid] at hmem
          exact hmem
        · rw [if_neg hw]
          exact List.mem_cons_of_mem _ (ih hnodup.2 hvw)

/-! ## Claim C7 -/

/-- C7: the manual quantity override accepts exactly the non-negative values
within the signed 32-bit range, writing precisely that value onto the row
with the given id and leaving every other row unchanged; a negative or
out-of-range value is rejected with a validation message and leaves the table
unchanged (no clamping: rejected submissions perform no write at all).  The
row id is a primary key, hence the no-duplicate hypothesis. -/
theorem C7_manual_override (db : VariantDb) (i : ℕ) (q : ℤ)
    (hnodup : (db.map (fun v => v.id)).Nodup) :
    (0 ≤ q → q ≤ MAX_INTEGER →
        (∀ v ∈ db, v.id = i →
          { v with quantity := q } ∈ applyVariantOp db (.setQuantity i q))
        ∧ (∀ v ∈ db, v.id ≠ i → v ∈ applyVariantOp db (.setQuantity i q)))
      ∧ ((q < 0 ∨ MAX_INTEGER < q) →
        (∃ msg, handleQuantityChange db i q = .rejected msg)
          ∧ applyVariantOp db (.setQuantity i q) = db) := by
  constructor
  · intro h0 hmax
    have hcond : ¬(MAX_INTEGER < q ∨ q < MIN_INTEGER) := by
      unfold MAX_INTEGER MIN_INTEGER at *
      omega
    have hneg : ¬(q < 0) := by omega
    have happ : applyVariantOp db (.setQuantity i q)
        = updateById db i (fun w => { w with quantity := q }) := by
      show (match handleQuantityChange db i q with
        | .updated db1 => db1
        | .rejected _ => db) = _
      unfold handleQuantityChange
      rw [if_neg hcond, if_neg hneg]
    rw [happ]
    exact ⟨fun v hv hid => mem_updateById_of_id db i _ v hnodup hv hid,
           fun v hv hid => mem_updateById_of_ne db i _ v hv hid⟩
  · intro h
    have hrej : ∃ msg, handleQuantityChange db i q = .rejected msg := by
      unfold handleQuantityChange
      by_cases hcond : MAX_INTEGER < q ∨ q < MIN_INTEGER
      · exact ⟨_, by rw [if_pos hcond]⟩
      · have hneg : q < 0 := by
          unfold MAX_INTEGER MIN_INTEGER at *
          omega
        exact ⟨_, by rw [if_neg hcond, if_pos hneg]⟩
    refine ⟨hrej, ?_⟩
    obtain ⟨msg, hmsg⟩ := hrej
    show (match handleQuantityChange db i q with
      | .updated db1 => db1
      | .rejected _ => db) = db
    rw [hmsg]

/-- Concrete variant row used by the C7 witness. -/
def c7Row : VariantRow :=
  { id := 7, product_id := "p1", variant_name := none, size := none,
    color := none, price := none, quantity := 3, minimum_quantity := 5,
    is_default := false }

/-- Witness for C7: setting quantity 5 on row 7 writes exactly 5; setting a
negative quantity is rejected and leaves the table unchanged. -/
theorem C7_manual_override_witness :
    { c7Row with quantity := 5 } ∈ applyVariantOp [c7Row] (.setQuantity 7 5)
      ∧ applyVariantOp [c7Row] (.setQuantity 7 (-1)) = [c7Row] := by
  refine ⟨?_, ?_⟩
  · exact ((C7_manual_override [c7Row] 7 5 (by simp)).1 (by norm_num)
      (by decide)).1 c7Row (List.mem_singleton.mpr rfl) rfl
  · exact ((C7_manual_override [c7Row] 7 (-1) (by simp)).2
      (Or.inl (by norm_num))).2

/-! ## Claim C10 -/

/-- C10: when a product is selected, a suggested variant whose price is 0 (or
null) makes the line price fall back to the product's base price — JS `||`
triggers on 0, not only on an absent price; explicitly choosing a variant
copies that variant's price verbatim, even when it is 0. -/
theorem C10_zero_price_fallback (p : OFProduct) (v : OFVariant) (item : OFItem) :
    (suggestedVariant p = some v → v.price = some 0 →
        (itemAfterProductChange p).price = some p.price)
      ∧ (suggestedVariant p = some v → v.price = none →
        (itemAfterProductChange p).price = some p.price)
      ∧ (itemAfterVariantChange item v).price = v.price := by
  refine ⟨?_, ?_, rfl⟩ <;> intro hs hp <;>
    simp [itemAfterProductChange, productSelectPrice, hs, hp]

/-- Zero-priced named in-stock variant for the C10 witness. -/
def c10Variant : OFVariant :=
  { id := "v1", variant_name := some "A", size := none, color := none,
    price := some 0, quantity := 2, is_default := false }

/-- Product whose suggested variant has price 0, for the C10 witness. -/
def c10Product : OFProduct :=
  { id := "p1", price := 10, variants := [c10Variant] }

/-- Blank order line for the C10 witness. -/
def c10Item : OFItem :=
  { product_id := "", variant_id := none, quantity := 1, price := some 0 }

/-- Witness for C10: with a suggested variant priced 0 the line price falls
back to the base price 10, while explicitly choosing that variant sets the
line price to 0. -/
theorem C10_zero_price_fallback_witness :
    (itemAfterProductChange c10Product).price = some c10Product.price
      ∧ (itemAfterVariantChange c10Item c10Variant).price = some 0 := by
  have h := C10_zero_price_fallback c10Product c10Variant c10Item
  exact ⟨h.1 (by decide) rfl, h.2.2⟩

/-! ## Lemmas about fresh ids and single-row updates -/

theorem freshId_gt (db : VariantDb) (v : VariantRow) (hv : v ∈ db) :
    v.id < freshId db := by
  induction db with
  | nil => cases hv
  | cons w ws ih =>
      unfold freshId
      rcases List.mem_cons.mp hv with rfl | hvw
      · exact lt_of_lt_of_le (Nat.lt_succ_self _) (le_max_left _ _)
      · exact lt_of_lt_of_le (ih hvw) (le_max_right _ _)

theorem freshId_ne (db : VariantDb) (v : VariantRow) (hv : v ∈ db) :
    v.id ≠ freshId db :=
  Nat.ne_of_lt (freshId_gt db v hv)

theorem insertVariant_of_not_default (db : VariantDb) (r : VariantRow)
    (h : r.is_default = false) : insertVariant db r = db ++ [r] := by
  unfold insertVariant insertConflict
  rw [h, Bool.false_and, if_neg (by simp)]

theorem updateById_append (l1 l2 : VariantDb) (v : VariantRow) (i : ℕ)
    (g : VariantRow → VariantRow) (h1 : ∀ w ∈ l1, w.id ≠ i) (hv : v.id = i) :
    updateById (l1 ++ v :: l2) i g = l1 ++ g v :: l2 := by
  induction l1 with
  | nil => simp [updateById, hv]
  | cons w ws ih =>
      have hw : w.id ≠ i := h1 w (List.mem_cons_self _ _)
      have ih2 := ih (fun x hx => h1 x (List.mem_cons_of_mem _ hx))
      show (if w.id = i then g w :: (ws ++ v :: l2)
          else w :: updateById (ws ++ v :: l2) i g)
        = w :: (ws ++ g v :: l2)
      rw [if_neg hw, ih2]

theorem append_cons_eq_singleton {α : Type} {l1 l2 : List α} {a b : α}
    (h : l1 ++ a :: l2 = [b]) : l1 = [] ∧ a = b ∧ l2 = [] := by
  cases l1 with
  | nil => simpa using h
  | cons x xs =>
      exfalso
      have hlen := congrArg List.length h
      simp [List.length_append] at hlen

theorem singleMatch_of_filter_eq (db : VariantDb) (pid : String)
    (size color : Option String) (v : VariantRow)
    (h : db.filter (variantMatchesKey pid size color) = [v]) :
    singleMatch db pid size color = some v := by
  unfold singleMatch
  rw [h]

theorem singleMatch_of_filter_nil (db : VariantDb) (pid : String)
    (size color : Option String)
    (h : db.filter (variantMatchesKey pid size color) = []) :
    singleMatch db pid size color = none := by
  unfold singleMatch
  rw [h]

/-- Decomposition of a table around the unique row matched by a key whose
filter is a singleton. -/
theorem filter_singleton_decomp (db : VariantDb) (P : VariantRow → Bool)
    (hnodup : (db.map (fun v => v.id)).Nodup) (v : VariantRow)
    (hv : db.filter P = [v]) :
    ∃ l1 l2, db = l1 ++ v :: l2 ∧ l1.filter P = [] ∧ l2.filter P = []
      ∧ (∀ w ∈ l1, w.id ≠ v.id) ∧ (∀ w ∈ l2, w.id ≠ v.id) := by
  have hvdb : v ∈ db := by
    have : v ∈ db.filter P := by rw [hv]; exact List.mem_singleton.mpr rfl
    exact List.mem_of_mem_filter this
  have hPv : P v = true := by
    have : v ∈ db.filter P := by rw [hv]; exact List.mem_singleton.mpr rfl
    exact List.of_mem_filter this
  obtain ⟨l1, l2, rfl⟩ := List.append_of_mem hvdb
  rw [List.filter_append, List.filter_cons_of_pos hPv] at hv
  obtain ⟨h1, -, h2⟩ := append_cons_eq_singleton hv
  have hnodup2 : (v.id :: (l1.map (fun v => v.id) ++ l2.map (fun v => v.id))).Nodup := by
    rw [List.map_append, List.map_cons] at hnodup
    exact List.nodup_middle.mp hnodup
  have hnotin := (List.nodup_cons.mp hnodup2).1
  refine ⟨l1, l2, rfl, h1, h2, ?_, ?_⟩
  · intro w hw he
    exact hnotin (by
      rw [List.mem_append]
      exact Or.inl (he ▸ List.mem_map_of_mem _ hw))
  · intro w hw he
    exact hnotin (by
      rw [List.mem_append]
      exact Or.inr (he ▸ List.mem_map_of_mem _ hw))

/-- Effect of a stock receive when exactly one variant matches the key: that
row's quantity is incremented in place. -/
theorem receiveStock_existing (l1 l2 : VariantDb) (v : VariantRow)
    (pid size color : String) (q : ℤ)
    (hP : (l1 ++ v :: l2).filter
        (variantMatchesKey pid (normOpt size) (normOpt color)) = [v])
    (h1 : ∀ w ∈ l1, w.id ≠ v.id) :
    receiveStock (l1 ++ v :: l2) ⟨pid, size, color, q⟩
      = l1 ++ { v with quantity := v.quantity + q } :: l2 := by
  unfold receiveStock
  rw [singleMatch_of_filter_eq _ _ _ _ _ hP]
  exact updateById_append l1 l2 v v.id _ h1 rfl

/-- Effect of a stock receive when no variant matches the key: a fresh row
with the received quantity is appended. -/
theorem receiveStock_fresh (db : VariantDb) (pid size color : String) (q : ℤ)
    (hP : db.filter (variantMatchesKey pid (normOpt size) (normOpt color)) = []) :
    receiveStock db ⟨pid, size, color, q⟩
      = db ++ [stockInsertRow db ⟨pid, size, color, q⟩] := by
  unfold receiveStock
  rw [singleMatch_of_filter_nil _ _ _ _ hP]
  exact insertVariant_of_not_default _ _ rfl

/-- The key predicate ignores `quantity`, so quantity updates preserve it. -/
theorem variantMatchesKey_quantity (pid : String) (size color : Option String)
    (v : VariantRow) (x : ℤ) :
    variantMatchesKey pid size color { v with quantity := x }
      = variantMatchesKey pid size color v := rfl

/-- A freshly inserted stock row matches its own key. -/
theorem stockInsertRow_matches (db : VariantDb) (pid size color : String) (q : ℤ) :
    variantMatchesKey pid (normOpt size) (normOpt color)
      (stockInsertRow db ⟨pid, size, color, q⟩) = true := by
  simp [variantMatchesKey, stockInsertRow]

/-! ## Claim C3 -/

/-- C3: receiving stock q1 and then q2 into the same (product, size, color)
key produces exactly the same table as one receive of q1+q2, and the key's
(unique) final variant has quantity at least `max q1 q2` when both receives
are positive.  Hypotheses: row ids are unique (primary key), at most one
variant matches the key (the lookup uses `.single()`), and existing
quantities are non-negative. -/
theorem C3_stock_receive_cumulative (db : VariantDb) (pid size color : String)
    (q1 q2 : ℤ)
    (hnodup : (db.map (fun v => v.id)).Nodup)
    (hkey : (db.filter (variantMatchesKey pid (normOpt size) (normOpt color))).length ≤ 1)
    (hq1 : 0 < q1) (hq2 : 0 < q2)
    (hnn : ∀ v ∈ db, 0 ≤ v.quantity) :
    receiveStock (receiveStock db ⟨pid, size, color, q1⟩) ⟨pid, size, color, q2⟩
        = receiveStock db ⟨pid, size, color, q1 + q2⟩
      ∧ ∃ v, singleMatch (receiveStock db ⟨pid, size, color, q1 + q2⟩)
            pid (normOpt size) (normOpt color) = some v
          ∧ max q1 q2 ≤ v.quantity := by
  cases hcase : List.filter (variantMatchesKey pid (normOpt size) (normOpt color)) db with
  | nil =>
    -- no variant matches the key yet: both receives go through the insert path
    have hr1 := receiveStock_fresh db pid size color q1 hcase
    have hr12 := receiveStock_fresh db pid size color (q1 + q2) hcase
    set r1 := stockInsertRow db ⟨pid, size, color, q1⟩ with hr1def
    have hfilter2 : (db ++ [r1]).filter
        (variantMatchesKey pid (normOpt size) (normOpt color)) = [r1] := by
      rw [List.filter_append, hcase,
        List.filter_cons_of_pos (stockInsertRow_matches db pid size color q1)]
      simp
    have hid1 : ∀ w ∈ db, w.id ≠ r1.id := fun w hw => freshId_ne db w hw
    have hr2 : receiveStock (db ++ [r1]) ⟨pid, size, color, q2⟩
        = db ++ { r1 with quantity := r1.quantity + q2 } :: [] :=
      receiveStock_existing db [] r1 pid size color q2 (by simpa using hfilter2) hid1
    constructor
    · rw [hr1, hr2, hr12]
      rfl
    · refine ⟨stockInsertRow db ⟨pid, size, color, q1 + q2⟩, ?_, ?_⟩
      · rw [hr12]
        apply singleMatch_of_filter_eq
        rw [List.filter_append, hcase,
          List.filter_cons_of_pos (stockInsertRow_matches db pid size color (q1 + q2))]
        simp
      · show max q1 q2 ≤ q1 + q2
        omega
  | cons v rest =>
    -- at least one variant matches; at most one by hkey, so rest is empty
    cases rest with
    | cons y ys =>
        rw [hcase] at hkey
        simp at hkey
    | nil =>
    have hPv : variantMatchesKey pid (normOpt size) (normOpt color) v = true := by
      have hm : v ∈ db.filter (variantMatchesKey pid (normOpt size) (normOpt color)) := by
        rw [hcase]; exact List.mem_singleton.mpr rfl
      exact List.of_mem_filter hm
    obtain ⟨l1, l2, rfl, hf1, hf2, hid1, hid2⟩ :=
      filter_singleton_decomp db _ hnodup v hcase
    have hr1 := receiveStock_existing l1 l2 v pid size color q1 hcase hid1
    have hr12 := receiveStock_existing l1 l2 v pid size color (q1 + q2) hcase hid1
    set v1 := { v with quantity := v.quantity + q1 } with hv1def
    have hfilter2 : (l1 ++ v1 :: l2).filter
        (variantMatchesKey pid (normOpt size) (normOpt color)) = [v1] := by
      rw [List.filter_append, hf1, List.filter_cons_of_pos (by
        rw [hv1def, variantMatchesKey_quantity]; exact hPv), hf2]
      rfl
    have hid1v1 : ∀ w ∈ l1, w.id ≠ v1.id := hid1
    have hr2 : receiveStock (l1 ++ v1 :: l2) ⟨pid, size, color, q2⟩
        = l1 ++ { v1 with quantity := v1.quantity + q2 } :: l2 :=
      receiveStock_existing l1 l2 v1 pid size color q2 hfilter2 hid1v1
    have hvdb : v ∈ l1 ++ v :: l2 := by
      rw [List.mem_append]
      exact Or.inr (List.mem_cons_self _ _)
    have hvq : 0 ≤ v.quantity := hnn v hvdb
    constructor
    · rw [hr1, hr2, hr12]
      have : v1.quantity + q2 = v.quantity + (q1 + q2) := by
        rw [hv1def]; ring
      rw [this]
    · refine ⟨{ v with quantity := v.quantity + (q1 + q2) }, ?_, ?_⟩
      · rw [hr12]
        apply singleMatch_of_filter_eq
        rw [List.filter_append, hf1, List.filter_cons_of_pos (by
          rw [variantMatchesKey_quantity]; exact hPv), hf2]
        rfl
      · show max q1 q2 ≤ v.quantity + (q1 + q2)
        omega

/-- Witness for C3 on a concrete table: one prior variant of the key at
quantity 3, receives of 5 then 7. -/
theorem C3_stock_receive_cumulative_witness :
    receiveStock (receiveStock [c7Row] ⟨"p1", "", "", 5⟩) ⟨"p1", "", "", 7⟩
        = receiveStock [c7Row] ⟨"p1", "", "", 5 + 7⟩
      ∧ ∃ v, singleMatch (receiveStock [c7Row] ⟨"p1", "", "", 5 + 7⟩)
            "p1" (normOpt "") (normOpt "") = some v
          ∧ max 5 7 ≤ v.quantity :=
  C3_stock_receive_cumulative [c7Row] "p1" "" "" 5 7 (by simp) (by decide)
    (by norm_num) (by norm_num) (by decide)

/-! ## Preservation lemmas for the one-default-per-product invariant -/

theorem freshId_not_mem (db : VariantDb) :
    freshId db ∉ db.map (fun v => v.id) := by
  intro h
  obtain ⟨v, hv, hid⟩ := List.mem_map.mp h
  exact absurd hid (freshId_ne db v hv)

theorem map_id_updateById (db : VariantDb) (i : ℕ) (g : VariantRow → VariantRow)
    (h : ∀ w, w.id = i → (g w).id = w.id) :
    (updateById db i g).map (fun v => v.id) = db.map (fun v => v.id) := by
  induction db with
  | nil => rfl
  | cons w ws ih =>
      show (if w.id = i then g w :: ws else w :: updateById ws i g).map _ = _
      by_cases hw : w.id = i
      · rw [if_pos hw, List.map_cons, List.map_cons, h w hw]
      · rw [if_neg hw, List.map_cons, List.map_cons, ih]

theorem countP_updateById_eq (db : VariantDb) (i : ℕ) (g : VariantRow → VariantRow)
    (p : VariantRow → Bool) (h : ∀ w, p (g w) = p w) :
    (updateById db i g).countP p = db.countP p := by
  induction db with
  | nil => rfl
  | cons w ws ih =>
      show (if w.id = i then g w :: ws else w :: updateById ws i g).countP p = _
      by_cases hw : w.id = i
      · rw [if_pos hw, List.countP_cons, List.countP_cons, h w]
      · rw [if_neg hw, List.countP_cons, List.countP_cons, ih]

theorem countP_updateById_le (db : VariantDb) (i : ℕ) (g : VariantRow → VariantRow)
    (p : VariantRow → Bool) (h : ∀ w, p (g w) = false) :
    (updateById db i g).countP p ≤ db.countP p := by
  induction db with
  | nil => exact le_refl _
  | cons w ws ih =>
      show (if w.id = i then g w :: ws else w :: updateById ws i g).countP p ≤ _
      by_cases hw : w.id = i
      · rw [if_pos hw, List.countP_cons, List.countP_cons, h w]
        have := List.countP_le_length (p := p) (l := ws)
        simp only [Bool.false_eq_true, if_false]
        omega
      · rw [if_neg hw, List.countP_cons, List.countP_cons]
        omega

/-- Replacing the row with primary key `i` keeps the count of `p`-rows at
most one, provided every other row fails `p`. -/
theorem countP_updateById_gated (db : VariantDb) (i : ℕ) (g : VariantRow → VariantRow)
    (p : VariantRow → Bool)
    (hnodup : (db.map (fun v => v.id)).Nodup)
    (hgate : ∀ w ∈ db, w.id ≠ i → p w = false) :
    (updateById db i g).countP p ≤ 1 := by
  induction db with
  | nil => simp [updateById]
  | cons w ws ih =>
      rw [List.map_cons, List.nodup_cons] at hnodup
      show (if w.id = i then g w :: ws else w :: updateById ws i g).countP p ≤ 1
      by_cases hw : w.id = i
      · rw [if_pos hw, List.countP_cons]
        have hws : ws.countP p = 0 := by
          rw [List.countP_eq_zero]
          intro x hx
          have hxne : x.id ≠ i := by
            intro hxi
            exact hnodup.1 (by
              rw [hw, ← hxi]
              exact List.mem_map_of_mem _ hx)
          simp [hgate x (List.mem_cons_of_mem _ hx) hxne]
        rw [hws]
        split <;> omega
      · rw [if_neg hw, List.countP_cons,
          hgate w (List.mem_cons_self _ _) hw]
        have := ih hnodup.2 (fun x hx hxi => hgate x (List.mem_cons_of_mem _ hx) hxi)
        simp only [Bool.false_eq_true, if_false]
        omega

/-- Predicate counted by `defaultsFor`. -/
def isDefaultFor (pid : String) (v : VariantRow) : Bool :=
  v.product_id == pid && v.is_default

theorem defaultsFor_eq_countP (db : VariantDb) (pid : String) :
    defaultsFor db pid = db.countP (isDefaultFor pid) := rfl

/-- A checked insert of a fresh-id row preserves well-formedness. -/
theorem insertVariant_wf (db : VariantDb) (r : VariantRow)
    (hid : r.id = freshId db)
    (hnodup : (db.map (fun v => v.id)).Nodup)
    (hinv : atMostOneDefault db) :
    ((insertVariant db r).map (fun v => v.id)).Nodup
      ∧ atMostOneDefault (insertVariant db r) := by
  unfold insertVariant
  by_cases hc : insertConflict db r = true
  · rw [if_pos hc]
    exact ⟨hnodup, hinv⟩
  · rw [if_neg hc]
    constructor
    · rw [List.map_append, List.map_singleton]
      rw [show (db.map (fun v => v.id)) ++ [r.id]
          = db.map (fun v => v.id) ++ r.id :: [] from rfl]
      rw [List.nodup_middle]
      rw [List.nodup_cons]
      exact ⟨by simpa [hid] using freshId_not_mem db, by simpa using hnodup⟩
    · intro pid
      rw [defaultsFor_eq_countP, List.countP_append]
      by_cases hpr : isDefaultFor pid r = true
      · have hcomp := hpr
        simp only [isDefaultFor, Bool.and_eq_true, beq_iff_eq] at hcomp
        obtain ⟨hpid, hdef⟩ := hcomp
        have hzero : db.countP (isDefaultFor pid) = 0 := by
          rw [List.countP_eq_zero]
          intro w hw hpw
          apply hc
          unfold insertConflict
          rw [hdef, Bool.true_and, List.any_eq_true]
          refine ⟨w, hw, ?_⟩
          unfold isDefaultFor at hpw
          rw [hpid]
          exact hpw
        rw [hzero]
        simp [hpr]
      · rw [List.countP_singleton]
        simp only [Bool.not_eq_true] at hpr
        rw [hpr]
        have := hinv pid
        rw [defaultsFor_eq_countP] at this
        simpa using this

/-- A checked full-row update preserves well-formedness. -/
theorem updateVariantRow_wf (db : VariantDb) (r : VariantRow)
    (hnodup : (db.map (fun v => v.id)).Nodup)
    (hinv : atMostOneDefault db) :
    ((updateVariantRow db r).map (fun v => v.id)).Nodup
      ∧ atMostOneDefault (updateVariantRow db r) := by
  unfold updateVariantRow
  by_cases hc : updateConflict db r = true
  · rw [if_pos hc]
    exact ⟨hnodup, hinv⟩
  · rw [if_neg hc]
    constructor
    · rw [map_id_updateById db r.id _ (fun w hw => hw.symm)]
      exact hnodup
    · intro pid
      rw [defaultsFor_eq_countP]
      by_cases hpr : isDefaultFor pid r = true
      · have hcomp := hpr
        simp only [isDefaultFor, Bool.and_eq_true, beq_iff_eq] at hcomp
        obtain ⟨hpid, hdef⟩ := hcomp
        apply countP_updateById_gated db r.id _ _ hnodup
        intro w hw hwne
        by_contra hpw
        simp only [Bool.not_eq_false] at hpw
        apply hc
        unfold updateConflict
        rw [hdef, Bool.true_and, List.any_eq_true]
        refine ⟨w, hw, ?_⟩
        have h1 : (w.product_id == r.product_id && w.is_default) = true := by
          unfold isDefaultFor at hpw
          rw [hpid]
          exact hpw
        simp only [Bool.and_eq_true] at h1 ⊢
        exact ⟨⟨by simpa using hwne, h1.1⟩, h1.2⟩
      · have hle := countP_updateById_le db r.id (fun _ => r) (isDefaultFor pid)
          (fun w => by simpa using hpr)
        have := hinv pid
        rw [defaultsFor_eq_countP] at this
        omega

/-- A stock receive preserves well-formedness: its update touches only
`quantity`, and its insert is a fresh non-default row. -/
theorem receiveStock_wf (db : VariantDb) (f : StockFormData)
    (hnodup : (db.map (fun v => v.id)).Nodup)
    (hinv : atMostOneDefault db) :
    ((receiveStock db f).map (fun v => v.id)).Nodup
      ∧ atMostOneDefault (receiveStock db f) := by
  cases hs : singleMatch db f.product_id (normOpt f.size) (normOpt f.color) with
  | some v =>
      have heq : receiveStock db f
          = updateById db v.id (fun w => { w with quantity := v.quantity + f.quantity }) := by
        unfold receiveStock
        rw [hs]
      rw [heq]
      constructor
      · rw [map_id_updateById db v.id
          (fun w => { w with quantity := v.quantity + f.quantity }) (fun w _ => rfl)]
        exact hnodup
      · intro pid
        rw [defaultsFor_eq_countP,
          countP_updateById_eq db v.id
            (fun w => { w with quantity := v.quantity + f.quantity })
            (isDefaultFor pid) (fun w => rfl)]
        exact hinv pid
  | none =>
      have heq : receiveStock db f = insertVariant db (stockInsertRow db f) := by
        unfold receiveStock
        rw [hs]
      rw [heq]
      exact insertVariant_wf db _ rfl hnodup hinv

/-- The explicit-variant insertion loop of product creation preserves
well-formedness. -/
theorem createVariants_foldl_wf (pid : String) (form : ProductFormState)
    (vs : List FormVariant) :
    ∀ db : VariantDb, (db.map (fun v => v.id)).Nodup → atMostOneDefault db →
      ((vs.foldl (fun d v => insertVariant d (explicitVariantRow pid form (freshId d) v)) db).map
          (fun v => v.id)).Nodup
        ∧ atMostOneDefault
          (vs.foldl (fun d v => insertVariant d (explicitVariantRow pid form (freshId d) v)) db) := by
  induction vs with
  | nil => exact fun db hn hi => ⟨hn, hi⟩
  | cons v vs ih =>
      intro db hn hi
      rw [List.foldl_cons]
      obtain ⟨hn1, hi1⟩ := insertVariant_wf db (explicitVariantRow pid form (freshId db) v)
        rfl hn hi
      exact ih _ hn1 hi1

/-- The update-or-insert loop of product save preserves well-formedness. -/
theorem saveVariants_foldl_wf (pid : String) (vs : List EditVariant) :
    ∀ db : VariantDb, (db.map (fun v => v.id)).Nodup → atMostOneDefault db →
      ((vs.foldl (fun d v =>
          match v.id with
          | some i => updateVariantRow d (editVariantRow pid i v)
          | none => insertVariant d (editVariantRow pid (freshId d) v)) db).map
            (fun v => v.id)).Nodup
        ∧ atMostOneDefault
          (vs.foldl (fun d v =>
            match v.id with
            | some i => updateVariantRow d (editVariantRow pid i v)
            | none => insertVariant d (editVariantRow pid (freshId d) v)) db) := by
  induction vs with
  | nil => exact fun db hn hi => ⟨hn, hi⟩
  | cons v vs ih =>
      intro db hn hi
      rw [List.foldl_cons]
      cases hv : v.id with
      | some i =>
          obtain ⟨hn1, hi1⟩ := updateVariantRow_wf db (editVariantRow pid i v) hn hi
          exact ih _ hn1 hi1
      | none =>
          obtain ⟨hn1, hi1⟩ := insertVariant_wf db (editVariantRow pid (freshId db) v)
            rfl hn hi
          exact ih _ hn1 hi1

/-- Deleting a product's rows preserves well-formedness. -/
theorem filter_wf (db : VariantDb) (p : VariantRow → Bool)
    (hnodup : (db.map (fun v => v.id)).Nodup)
    (hinv : atMostOneDefault db) :
    ((db.filter p).map (fun v => v.id)).Nodup
      ∧ atMostOneDefault (db.filter p) := by
  have hsub : List.Sublist (db.filter p) db := List.filter_sublist db
  constructor
  · exact List.Nodup.sublist (hsub.map _) hnodup
  · intro pid
    rw [defaultsFor_eq_countP]
    have h1 := hsub.countP_le (isDefaultFor pid)
    have h2 := hinv pid
    rw [defaultsFor_eq_countP] at h2
    omega

/-- Every variant-writing operation of the application preserves
well-formedness of the variant table. -/
theorem applyVariantOp_wf (db : VariantDb) (op : VariantOp)
    (hnodup : (db.map (fun v => v.id)).Nodup)
    (hinv : atMostOneDefault db) :
    ((applyVariantOp db op).map (fun v => v.id)).Nodup
      ∧ atMostOneDefault (applyVariantOp db op) := by
  cases op with
  | receive f =>
      by_cases hp : f.product_id = ""
      · have heq : applyVariantOp db (.receive f) = db := by
          show (match stockFormSubmit db f with
            | .wrote db1 => db1
            | .validationError _ => db) = db
          unfold stockFormSubmit
          rw [if_pos hp]
        rw [heq]
        exact ⟨hnodup, hinv⟩
      · have heq : applyVariantOp db (.receive f) = receiveStock db f := by
          show (match stockFormSubmit db f with
            | .wrote db1 => db1
            | .validationError _ => db) = _
          unfold stockFormSubmit
          rw [if_neg hp]
        rw [heq]
        exact receiveStock_wf db f hnodup hinv
  | setQuantity i q =>
      by_cases h1 : MAX_INTEGER < q ∨ q < MIN_INTEGER
      · have heq : applyVariantOp db (.setQuantity i q) = db := by
          show (match handleQuantityChange db i q with
            | .updated db1 => db1
            | .rejected _ => db) = db
          unfold handleQuantityChange
          rw [if_pos h1]
        rw [heq]
        exact ⟨hnodup, hinv⟩
      · by_cases h2 : q < 0
        · have heq : applyVariantOp db (.setQuantity i q) = db := by
            show (match handleQuantityChange db i q with
              | .updated db1 => db1
              | .rejected _ => db) = db
            unfold handleQuantityChange
            rw [if_neg h1, if_pos h2]
          rw [heq]
          exact ⟨hnodup, hinv⟩
        · have heq : applyVariantOp db (.setQuantity i q)
              = updateById db i (fun w => { w with quantity := q }) := by
            show (match handleQuantityChange db i q with
              | .updated db1 => db1
              | .rejected _ => db) = _
            unfold handleQuantityChange
            rw [if_neg h1, if_neg h2]
          rw [heq]
          constructor
          · rw [map_id_updateById db i
              (fun w => { w with quantity := q }) (fun w _ => rfl)]
            exact hnodup
          · intro pid
            rw [defaultsFor_eq_countP,
              countP_updateById_eq db i (fun w => { w with quantity := q })
                (isDefaultFor pid) (fun w => rfl)]
            exact hinv pid
  | createProduct pid form =>
      show ((createProductVariants db pid form).map _).Nodup
        ∧ atMostOneDefault (createProductVariants db pid form)
      unfold createProductVariants
      by_cases hb : (form.hasVariants && !form.variants.isEmpty) = true
      · rw [if_pos hb]
        exact createVariants_foldl_wf pid form form.variants db hnodup hinv
      · rw [if_neg hb]
        exact insertVariant_wf db _ rfl hnodup hinv
  | saveProduct pid form =>
      show ((productSaveVariants db pid form).map _).Nodup
        ∧ atMostOneDefault (productSaveVariants db pid form)
      unfold productSaveVariants
      by_cases hb1 : (form.hasVariants && !form.variants.any (fun v => v.is_default)) = true
      · rw [if_pos hb1]
        exact ⟨hnodup, hinv⟩
      · rw [if_neg hb1]
        by_cases hb2 : form.hasVariants = true
        · rw [if_pos hb2]
          exact saveVariants_foldl_wf pid form.variants db hnodup hinv
        · rw [if_neg hb2]
          obtain ⟨hn1, hi1⟩ := filter_wf db (fun w => !(w.product_id == pid)) hnodup hinv
          exact insertVariant_wf _ _ rfl hn1 hi1

/-! ## Claim C9 -/

/-- C9: at most one variant per product carries `is_default = true`, and this
invariant is preserved by every operation that creates or updates variants —
stock receive, the inventory quantity override, product creation, and product
save.  Writes that set `is_default` are checked against the declared
`one_default_variant_per_product` constraint (a conflicting write is rejected
by the database and leaves the table unchanged); row ids are unique, being
the table's primary key. -/
theorem C9_one_default_per_product (db : VariantDb) (op : VariantOp)
    (hnodup : (db.map (fun v => v.id)).Nodup)
    (hinv : atMostOneDefault db) :
    atMostOneDefault (applyVariantOp db op) :=
  (applyVariantOp_wf db op hnodup hinv).2

/-- Existing default variant row used by the C9 witness. -/
def c9Row : VariantRow :=
  { id := 1, product_id := "p1", variant_name := none, size := none,
    color := none, price := none, quantity := 5, minimum_quantity := 5,
    is_default := true }

/-- Witness for C9: creating a second product with a default bookkeeping
variant, starting from a table that already holds a default variant of "p1",
keeps at most one default per product. -/
theorem C9_one_default_per_product_witness :
    atMostOneDefault (applyVariantOp [c9Row] (.createProduct "p2" ⟨10, 20, 5, false, []⟩)) :=
  C9_one_default_per_product [c9Row] (.createProduct "p2" ⟨10, 20, 5, false, []⟩)
    (by simp)
    (fun pid => le_trans (List.countP_le_length _) (by simp))

end EcommerceDashboard
